import Mathlib

/-!
# Verification of the Live-Outage-Dashboard normalization and polling engine

A shallow embedding, in Lean 4, of the configuration-driven normalization
and polling core of the Live-Outage-Dashboard repository
(worker routes, entity store, and the dashboard panels), together with
theorems checking the natural-language specification against it.

Modelling conventions, used throughout:

* JavaScript/JSON runtime values are modelled by the inductive type `JsVal`
  (null, undefined, booleans, numbers, strings, arrays, objects).
  Numbers are modelled as `Int` (the code never relies on fractional or
  NaN arithmetic in the fragments verified here).  Objects are association
  lists with distinct keys, as produced by `JSON.parse`.
* Instants are integers counting seconds since the epoch, in a single
  time zone (the code formats and parses wall-clock strings without
  explicit zone handling).  `86400` is one calendar day.
* `fetch` outcomes are an explicit oracle (`FetchOutcome`): a probe either
  throws (network/transport failure) or yields a response with an HTTP
  success flag and an optional parsed JSON body (`none` models a body
  that is not valid JSON, whose `response.json()` call throws).
-/

namespace Aegis

/-- Model of a JavaScript runtime value (the loosely-typed payloads the
dashboard receives from ServiceNow, SolarWinds and vendor endpoints). -/
inductive JsVal where
  | nullV : JsVal
  | undefV : JsVal
  | boolV : Bool → JsVal
  | numV : Int → JsVal
  | strV : String → JsVal
  | arrV : List JsVal → JsVal
  | objV : List (String × JsVal) → JsVal

/-- JavaScript truthiness: `null`, `undefined`, `false`, `0` and `""` are
falsy; every object and array is truthy. -/
def JsVal.truthy : JsVal → Bool
  | .nullV => false
  | .undefV => false
  | .boolV b => b
  | .numV n => n != 0
  | .strV s => s != ""
  | .arrV _ => true
  | .objV _ => true

/-- JavaScript property access `v[k]`: reading a key of an object yields
the stored value or `undefined`; reading a key of any non-object value
yields `undefined` (numeric array indexing is not needed by the paths the
dashboard configures). -/
def JsVal.get : JsVal → String → JsVal
  | .objV fields, k =>
    match fields.lookup k with
    | some v => v
    | none => .undefV
  | _, _ => .undefV

/-- The JavaScript `in` operator restricted to objects: does the object
have the key at all (even when its value is falsy)? -/
def JsVal.hasKey : JsVal → String → Bool
  | .objV fields, k => (fields.lookup k).isSome
  | _, _ => false

/-! ### Character-level string primitives

The embedding reimplements the JS string primitives it needs
(`toLowerCase`, `trim`, `split('.')`, joining) by structural recursion
over character lists, so that every definition evaluates inside the
kernel on concrete inputs. -/

/-- JS `s.toLowerCase()` (ASCII case mapping, which covers the tokens
the dashboard compares). -/
def lowerStr (s : String) : String :=
  String.mk (s.toList.map Char.toLower)

/-- JS `s.trim()`: strip leading and trailing whitespace. -/
def trimStr (s : String) : String :=
  String.mk (((s.toList.dropWhile Char.isWhitespace).reverse.dropWhile Char.isWhitespace).reverse)

/-- Split a character list at every `'.'` (accumulator holds the current
segment reversed). -/
def splitDotAux : List Char → List Char → List (List Char)
  | acc, [] => [acc.reverse]
  | acc, '.' :: rest => acc.reverse :: splitDotAux [] rest
  | acc, c :: rest => splitDotAux (c :: acc) rest

/-- JS `path.split('.')` (so `""` gives `[""]` and `"a..b"` gives
`["a", "", "b"]`). -/
def jsSplitDot (s : String) : List String :=
  (splitDotAux [] s.toList).map String.mk

/-- Concatenate a list of strings. -/
def joinStr (l : List String) : String :=
  l.foldl (fun a b => a ++ b) ""

/-- Join a list of strings with a separator (`Array.prototype.join`). -/
def interStr (sep : String) : List String → String
  | [] => ""
  | [x] => x
  | x :: xs => x ++ sep ++ interStr sep xs

/-- Escape a character for a JSON string literal (quote and backslash;
the payload fragments the claims touch contain no control characters). -/
def jsonEscapeChar (c : Char) : String :=
  if c = '"' then "\\\"" else if c = '\\' then "\\\\" else String.mk [c]

mutual

/-- Model of `JSON.stringify` (compact form, no spaces), as used by
`getProperty` and `asText` for the fallback serialization of a
reference-shaped object. -/
def JsVal.stringify : JsVal → String
  | .nullV => "null"
  | .undefV => "undefined"
  | .boolV b => cond b "true" "false"
  | .numV n => toString n
  | .strV s => "\"" ++ joinStr (s.toList.map jsonEscapeChar) ++ "\""
  | .arrV es => "[" ++ interStr "," (stringifyElems es) ++ "]"
  | .objV fs => "\x7b" ++ interStr "," (stringifyFields fs) ++ "\x7d"

/-- Serialize the elements of a JSON array, in order. -/
def stringifyElems : List JsVal → List String
  | [] => []
  | v :: vs => JsVal.stringify v :: stringifyElems vs

/-- Serialize the key/value pairs of a JSON object, in order. -/
def stringifyFields : List (String × JsVal) → List String
  | [] => []
  | (k, v) :: fs =>
    ("\"" ++ k ++ "\":" ++ JsVal.stringify v) :: stringifyFields fs

end

mutual

/-- Model of the JavaScript `String(v)` conversion for the values the
dashboard handles (array conversion is `join(",")` with null/undefined
elements rendered empty, objects render as "[object Object]"). -/
def JsVal.toStr : JsVal → String
  | .nullV => "null"
  | .undefV => "undefined"
  | .boolV b => cond b "true" "false"
  | .numV n => toString n
  | .strV s => s
  | .arrV es => interStr "," (toStrElems es)
  | .objV _ => "[object Object]"

/-- `Array.prototype.join(",")` element conversion: null and undefined
elements render as the empty string. -/
def toStrElems : List JsVal → List String
  | [] => []
  | .nullV :: vs => "" :: toStrElems vs
  | .undefV :: vs => "" :: toStrElems vs
  | v :: vs => JsVal.toStr v :: toStrElems vs

end

/-- JavaScript `a || b` (first operand when truthy, otherwise the second). -/
def jsOr (a b : JsVal) : JsVal :=
  if a.truthy then a else b

/-- JavaScript `a ?? b` (first operand unless it is null/undefined). -/
def jsCoalesce (a b : JsVal) : JsVal :=
  match a with
  | .nullV => b
  | .undefV => b
  | v => v

/-- The walk `path.split('.').reduce((acc, part) => acc && acc[part], obj)`
of `getProperty` (worker routes): each step short-circuits on a falsy
accumulator, returning that falsy value itself. -/
def getPropertyWalk : JsVal → List String → JsVal
  | acc, [] => acc
  | acc, p :: ps =>
    if acc.truthy then getPropertyWalk (acc.get p) ps else acc

/-- `getProperty` from the worker routes: splits the path on `.`, walks
the structure, and unwraps ServiceNow reference objects via
`value.display_value || value.name || value.value || JSON.stringify(value)`. -/
def getProperty (obj : JsVal) (path : String) : JsVal :=
  let value := getPropertyWalk obj (jsSplitDot path)
  match value with
  | .objV _ =>
    jsOr (value.get "display_value") (jsOr (value.get "name")
      (jsOr (value.get "value") (.strV value.stringify)))
  | .arrV _ =>
    jsOr (value.get "display_value") (jsOr (value.get "name")
      (jsOr (value.get "value") (.strV value.stringify)))
  | _ => value

/-! ## Instants and the calendar

Instants are seconds since 1970-01-01 00:00:00; `86400` is one day.
The civil-calendar conversions below are the standard era-based
algorithms, used to model `date-fns` formatting and `new Date(string)`
parsing in a single time zone. -/

/-- The calendar day an instant falls on (days since the epoch). -/
def dayOf (t : Int) : Int := Int.ediv t 86400

/-- Days since 1970-01-01 of the civil date `y-m-d` (proleptic Gregorian). -/
def daysFromCivil (y m d : Int) : Int :=
  let yy := if m ≤ 2 then y - 1 else y
  let era := Int.ediv yy 400
  let yoe := yy - era * 400
  let mp := Int.emod (m + 9) 12
  let doy := Int.ediv (153 * mp + 2) 5 + d - 1
  let doe := yoe * 365 + Int.ediv yoe 4 - Int.ediv yoe 100 + doy
  era * 146097 + doe - 719468

/-- Civil date `(y, m, d)` of a day count since 1970-01-01. -/
def civilFromDays (z : Int) : Int × Int × Int :=
  let z := z + 719468
  let era := Int.ediv z 146097
  let doe := z - era * 146097
  let yoe := Int.ediv (doe - Int.ediv doe 1460 + Int.ediv doe 36524 - Int.ediv doe 146096) 365
  let y := yoe + era * 400
  let doy := doe - (365 * yoe + Int.ediv yoe 4 - Int.ediv yoe 100)
  let mp := Int.ediv (5 * doy + 2) 153
  let d := doy - Int.ediv (153 * mp + 2) 5 + 1
  let m := mp + (if mp < 10 then 3 else -9)
  (if m ≤ 2 then y + 1 else y, m, d)

/-- Days in a month of the Gregorian calendar. -/
def daysInMonth (y m : Int) : Int :=
  if m = 2 then
    (if Int.emod y 4 = 0 ∧ (Int.emod y 100 ≠ 0 ∨ Int.emod y 400 = 0) then 29 else 28)
  else if m = 4 ∨ m = 6 ∨ m = 9 ∨ m = 11 then 30
  else 31

/-- Numeric value of four decimal digit characters. -/
def digits4 (a b c d : Char) : Int :=
  Int.ofNat ((a.toNat - 48) * 1000 + (b.toNat - 48) * 100 + (c.toNat - 48) * 10 + (d.toNat - 48))

/-- Numeric value of two decimal digit characters. -/
def digits2 (a b : Char) : Int :=
  Int.ofNat ((a.toNat - 48) * 10 + (b.toNat - 48))

/-- Instant for a validated date/time tuple, or `none` when a field is
out of range (an "Invalid Date"). -/
def mkInstant (y mo d h mi se : Int) : Option Int :=
  if 1 ≤ mo ∧ mo ≤ 12 ∧ 1 ≤ d ∧ d ≤ daysInMonth y mo ∧
     0 ≤ h ∧ h ≤ 23 ∧ 0 ≤ mi ∧ mi ≤ 59 ∧ 0 ≤ se ∧ se ≤ 59 then
    some (daysFromCivil y mo d * 86400 + h * 3600 + mi * 60 + se)
  else none

/-- The time-of-day part of a date string: either absent, or a separator
(`T` per ISO, or a space as the V8 host parser also accepts) followed by
`HH:MM:SS`. -/
def parseTimePart (y mo d : Int) : List Char → Option Int
  | [] => mkInstant y mo d 0 0 0
  | sep :: h1 :: h2 :: ':' :: m1 :: m2 :: ':' :: s1 :: s2 :: [] =>
    if (sep = 'T' ∨ sep = ' ') ∧ [h1, h2, m1, m2, s1, s2].all Char.isDigit then
      mkInstant y mo d (digits2 h1 h2) (digits2 m1 m2) (digits2 s1 s2)
    else none
  | _ => none

/-- Model of `new Date(string)` on the V8 host: accepts `YYYY-MM-DD`,
`YYYY-MM-DDTHH:MM:SS` and `YYYY-MM-DD HH:MM:SS` shapes (the shapes the
integrated systems emit), returning `none` for an Invalid Date.
Fractional seconds and explicit zone offsets are outside the model. -/
def jsDateParse (s : String) : Option Int :=
  match s.toList with
  | y1 :: y2 :: y3 :: y4 :: '-' :: a1 :: a2 :: '-' :: b1 :: b2 :: rest =>
    if [y1, y2, y3, y4, a1, a2, b1, b2].all Char.isDigit then
      parseTimePart (digits4 y1 y2 y3 y4) (digits2 a1 a2) (digits2 b1 b2) rest
    else none
  | _ => none

/-- Model of the `new Date(x)` constructor on the value shapes the routes
feed it: a string is parsed, a number is an epoch instant, anything else
is an Invalid Date here (the routes only pass strings or null). -/
def jsNewDate : JsVal → Option Int
  | .strV s => jsDateParse s
  | .numV n => some n
  | _ => none

/-- `safeParseDate` from the worker routes: a falsy input falls back to
"now", an input whose parse is an Invalid Date falls back to "now",
otherwise the parsed instant is returned (the route returns the ISO
rendering of the instant; the model returns the instant itself). -/
def safeParseDate (dateStr : JsVal) (now : Int) : Int :=
  if !dateStr.truthy then now
  else
    match jsNewDate dateStr with
    | some t => t
    | none => now

/-! ## The scheduled-changes panel's text and date helpers -/

/-- `asText` from the scheduled-changes panel: null/undefined become the
empty string; an object with a `display_value` key renders that value
(`?? ''`), else one with a `value` key renders that, else the compact
JSON serialization; all other values go through `String(v)`. -/
def asText (v : JsVal) : String :=
  match v with
  | .nullV => ""
  | .undefV => ""
  | .objV _ =>
    if v.hasKey "display_value" then (jsCoalesce (v.get "display_value") (.strV "")).toStr
    else if v.hasKey "value" then (jsCoalesce (v.get "value") (.strV "")).toStr
    else v.stringify
  | .arrV _ => v.stringify
  | _ => v.toStr

/-- The `^\d{4}-\d{2}-\d{2} \d{2}:\d{2}:\d{2}$` test of `normDateStr`. -/
def isSqlDateTimeChars : List Char → Bool
  | [y1, y2, y3, y4, '-', a1, a2, '-', b1, b2, ' ', h1, h2, ':', m1, m2, ':', s1, s2] =>
    [y1, y2, y3, y4, a1, a2, b1, b2, h1, h2, m1, m2, s1, s2].all Char.isDigit
  | _ => false

/-- `s.replace(' ', 'T')` with a string pattern replaces the first
occurrence only. -/
def replaceFirstSpaceT : List Char → List Char
  | [] => []
  | ' ' :: rest => 'T' :: rest
  | c :: rest => c :: replaceFirstSpaceT rest

/-- JS `s.replace(' ', 'T')`. -/
def jsReplaceSpaceT (s : String) : String :=
  String.mk (replaceFirstSpaceT s.toList)

/-- `normDateStr` from the scheduled-changes panel: stringify and trim;
empty becomes `none`; an SQL-style `YYYY-MM-DD HH:MM:SS` string is
rewritten to the ISO-like `T` form; anything else is left for the `Date`
parser to try. -/
def normDateStr (v : JsVal) : Option String :=
  let s := trimStr (asText v)
  if s = "" then none
  else if isSqlDateTimeChars s.toList then some (jsReplaceSpaceT s)
  else some s

/-- `safeParse` from the scheduled-changes panel: normalize, then parse;
an Invalid Date yields `none` (rendered as a dash by the panel). -/
def safeParse (v : JsVal) : Option Int :=
  match normDateStr v with
  | none => none
  | some n => jsDateParse n

/-! ## `date-fns` formatting -/

/-- Two-digit zero-padded rendering of `0 ≤ n ≤ 99`. -/
def pad2 (n : Int) : String :=
  (if n < 10 then "0" else "") ++ toString n

/-- Four-digit zero-padded rendering of `0 ≤ n ≤ 9999`. -/
def pad4 (n : Int) : String :=
  (if n < 10 then "000" else if n < 100 then "00" else if n < 1000 then "0" else "") ++ toString n

/-- `format(t, 'yyyy-MM-dd')`. -/
def fmtDate (t : Int) : String :=
  let c := civilFromDays (dayOf t)
  pad4 c.1 ++ "-" ++ pad2 c.2.1 ++ "-" ++ pad2 c.2.2

/-- `format(t, 'yyyy-MM-dd HH:mm:ss')`. -/
def fmtDateTime (t : Int) : String :=
  let rem := t - dayOf t * 86400
  fmtDate t ++ " " ++ pad2 (Int.ediv rem 3600) ++ ":" ++
    pad2 (Int.ediv (Int.emod rem 3600) 60) ++ ":" ++ pad2 (Int.emod rem 60)

/-! ## Vendor status polling (`GET /api/vendors/status`) -/

/-- A vendor probe specification, as stored by the vendor entity. -/
structure Vendor where
  id : String
  name : String
  url : String
  statusType : String
  apiUrl : Option String
  jsonPath : Option String
  expectedValue : Option String
deriving DecidableEq

/-- The ephemeral per-vendor result the status route returns. -/
structure VendorStatus where
  id : String
  name : String
  url : String
  status : String
deriving DecidableEq

/-- Outcome of one `fetch` of a vendor's status URL: the request throws
(network/transport failure), or a response arrives with an HTTP success
flag and a parsed JSON body (`none`: the body is not valid JSON, so
`response.json()` throws). -/
inductive FetchOutcome where
  | throwErr : FetchOutcome
  | resp : Bool → Option JsVal → FetchOutcome

/-- JS truthiness of an optional string field (`null` and `""` are falsy). -/
def optTruthy : Option String → Bool
  | none => false
  | some s => s != ""

/-- The route's probe guard
`vendor.statusType === 'API_JSON' && vendor.apiUrl && vendor.jsonPath && vendor.expectedValue`;
when it fails (in particular for `'MANUAL'` vendors) no fetch is issued. -/
def isApiProbe (v : Vendor) : Bool :=
  v.statusType == "API_JSON" && optTruthy v.apiUrl && optTruthy v.jsonPath &&
    optTruthy v.expectedValue

/-- The status computed for one vendor given its fetch outcome, following
the route body: default `Operational`; for an API probe, a thrown fetch or
non-ok response or unparseable body gives `Degraded`, a missing JSON path
gives `Degraded`, a resolved value stringifying to the expected value
gives `Operational`, and any other resolved value gives `Outage`. -/
def probeStatus (outcome : FetchOutcome) (v : Vendor) : String :=
  if isApiProbe v then
    match outcome with
    | .throwErr => "Degraded"
    | .resp ok body =>
      if !ok then "Degraded"
      else
        match body with
        | none => "Degraded"
        | some json =>
          match getProperty json (v.jsonPath.getD "") with
          | .undefV => "Degraded"
          | value => if value.toStr = v.expectedValue.getD "" then "Operational" else "Outage"
  else "Operational"

/-- The `VendorStatus` record built for one vendor. -/
def vendorResult (outcome : FetchOutcome) (v : Vendor) : VendorStatus :=
  { id := v.id, name := v.name, url := v.url, status := probeStatus outcome v }

/-- The status route's batch: `vendors.map(async vendor => ...)` followed
by `Promise.all`.  Each probe is an independent fetch; `net i` is the
outcome of the `i`-th probe.  Every mapped promise resolves (its body
catches its own exceptions), so `Promise.all` resolves with one result
per vendor in input order — the batch is a total function. -/
def pollAll (vendors : List Vendor) (net : Nat → FetchOutcome) : List VendorStatus :=
  vendors.enum.map (fun p => vendorResult (net p.1) p.2)

/-! ## Impact-level translation (worker routes) -/

/-- One row of the configured impact mapping table. -/
structure ImpactMapItem where
  servicenowValue : String
  dashboardValue : String
deriving DecidableEq

/-- `Map.prototype.set` on an insertion-ordered association list: an
existing key keeps its position and gets the new value, a new key is
appended. -/
def mapSet : List (String × String) → String → String → List (String × String)
  | [], k, v => [(k, v)]
  | p :: rest, k, v => if p.1 = k then (k, v) :: rest else p :: mapSet rest k v

/-- `new Map(impactLevelMapping.map(item => [item.servicenowValue.toLowerCase(), item.dashboardValue]))`:
the `Map` constructor `set`s each pair in order, so a duplicate key ends
up with the value of its last occurrence. -/
def buildImpactMap (mapping : List ImpactMapItem) : List (String × String) :=
  mapping.foldl (fun m item => mapSet m (lowerStr item.servicenowValue) item.dashboardValue) []

/-- The value a `Map` built from an entry list associates with a key:
the value of the last entry whose lower-cased external key matches. -/
def lastMappedValue (mapping : List ImpactMapItem) (key : String) : Option String :=
  (mapping.reverse.find? (fun item => lowerStr item.servicenowValue == key)).map
    (fun item => item.dashboardValue)

/-- The outage routes' impact translation:
`String(rawImpact || '').toLowerCase().trim()` looked up in the map,
with `|| 'Degradation'` as the fallback (also taken when the mapped
value is the empty string, which is falsy). -/
def translateImpact (rawImpact : JsVal) (mapping : List ImpactMapItem) : String :=
  let servicenowImpact := trimStr (lowerStr (jsOr rawImpact (.strV "")).toStr)
  match (buildImpactMap mapping).lookup servicenowImpact with
  | some v => if v = "" then "Degradation" else v
  | none => "Degradation"

/-! ## The ServiceNow configuration entity -/

/-- The configured outage field mapping (canonical field → external path). -/
structure FieldMapping where
  systemName : String
  impactLevel : String
  startTime : String
  eta : String
  description : String
  teamsBridgeUrl : String
deriving DecidableEq

/-- The configured ticket field mapping. -/
structure TicketFieldMapping where
  id : String
  summary : String
  affectedCI : String
  status : String
  assignedTeam : String
  priority : String
deriving DecidableEq

/-- The stored `impactLevelMapping` field of the config entity, before the
read-time repair: the JSON value there may be absent/null, present but
not an array, or an array of mapping rows (possibly empty — nothing
validates the posted body). -/
inductive StoredImpactMapping where
  | missing : StoredImpactMapping
  | notArray : JsVal → StoredImpactMapping
  | arrOf : List ImpactMapItem → StoredImpactMapping

/-- The built-in default impact mapping of
`ServiceNowConfigEntity.initialState`. -/
def defaultImpactLevelMapping : List ImpactMapItem :=
  [⟨"outage", "Outage"⟩, ⟨"degradation", "Degradation"⟩]

/-- The built-in default outage field mapping of the initial state. -/
def defaultFieldMapping : FieldMapping :=
  ⟨"cmdb_ci.name", "type", "begin", "end", "short_description", "u_teams_bridge_url"⟩

/-- The built-in default ticket field mapping of the initial state. -/
def defaultTicketFieldMapping : TicketFieldMapping :=
  ⟨"number", "short_description", "cmdb_ci.name", "state", "assignment_group.name", "priority"⟩

/-- The ServiceNow integration configuration as readers observe it. -/
structure ServiceNowConfig where
  enabled : Bool
  instanceUrl : String
  usernameVar : String
  passwordVar : String
  outageTable : String
  fieldMapping : FieldMapping
  impactLevelMapping : List ImpactMapItem
  ticketTable : String
  ticketFieldMapping : TicketFieldMapping
deriving DecidableEq

/-- The stored singleton state: identical to `ServiceNowConfig` except
that the persisted `impactLevelMapping` field may hold anything a client
posted (the save route performs no validation). -/
structure ServiceNowStoredState where
  enabled : Bool
  instanceUrl : String
  usernameVar : String
  passwordVar : String
  outageTable : String
  fieldMapping : FieldMapping
  impactLevelMapping : StoredImpactMapping
  ticketTable : String
  ticketFieldMapping : TicketFieldMapping

/-- The read-time repair inside `ServiceNowConfigEntity.getState`:
`if (!state.impactLevelMapping || !Array.isArray(state.impactLevelMapping))`
replace it with the initial state's mapping.  A falsy value (absent/null)
or a non-array value is repaired; any array — the empty array included —
is truthy and passes `Array.isArray`, so it is returned as stored. -/
def getStateImpactMapping : StoredImpactMapping → List ImpactMapItem
  | .missing => defaultImpactLevelMapping
  | .notArray _ => defaultImpactLevelMapping
  | .arrOf items => items

/-- `ServiceNowConfigEntity.getState`: the stored state with the
`impactLevelMapping` repair applied. -/
def ServiceNowConfigEntity.getState (s : ServiceNowStoredState) : ServiceNowConfig :=
  { enabled := s.enabled, instanceUrl := s.instanceUrl, usernameVar := s.usernameVar,
    passwordVar := s.passwordVar, outageTable := s.outageTable,
    fieldMapping := s.fieldMapping,
    impactLevelMapping := getStateImpactMapping s.impactLevelMapping,
    ticketTable := s.ticketTable, ticketFieldMapping := s.ticketFieldMapping }

/-- `POST /api/servicenow/config` saves the posted body wholesale,
without validation. -/
def ServiceNowConfigEntity.save (body : ServiceNowStoredState) : ServiceNowStoredState :=
  body

/-! ## Query construction (worker routes) -/

/-- Characters `encodeURIComponent` leaves unescaped. -/
def uriUnreservedChar (c : Char) : Bool :=
  c.isAlpha || c.isDigit ||
    c = '-' || c = '_' || c = '.' || c = '!' || c = '~' || c = '*' || c = '\'' ||
    c = '(' || c = ')'

/-- Upper-case hex digit of `n < 16`. -/
def hexChar (n : Nat) : Char :=
  if n < 10 then Char.ofNat (48 + n) else Char.ofNat (55 + n)

/-- UTF-8 bytes of a character. -/
def utf8Bytes (c : Char) : List Nat :=
  let n := c.toNat
  if n < 128 then [n]
  else if n < 2048 then [192 + n / 64, 128 + n % 64]
  else if n < 65536 then [224 + n / 4096, 128 + n / 64 % 64, 128 + n % 64]
  else [240 + n / 262144, 128 + n / 4096 % 64, 128 + n / 64 % 64, 128 + n % 64]

/-- Model of `encodeURIComponent`. -/
def encodeURIComponent (s : String) : String :=
  joinStr (s.toList.map (fun c =>
    if uriUnreservedChar c then String.mk [c]
    else joinStr ((utf8Bytes c).map (fun b =>
      "%" ++ String.mk [hexChar (b / 16)] ++ String.mk [hexChar (b % 16)]))))

/-- The un-encoded history filter built by `GET /api/outages/history`:
`end>=${format(subDays(now, 7), 'yyyy-MM-dd HH:mm:ss')}^${fieldMapping.impactLevel}IN outage,degradation`
(the `IN` token list is the fixed literal `outage,degradation`). -/
def historyQuery (config : ServiceNowConfig) (now : Int) : String :=
  let sevenDaysAgo := fmtDateTime (now - 7 * 86400)
  "end>=" ++ sevenDaysAgo ++ "^" ++ config.fieldMapping.impactLevel ++ "IN outage,degradation"

/-- The full history request URL built by `GET /api/outages/history`. -/
def historyQueryUrl (config : ServiceNowConfig) (now : Int) : String :=
  let fields := interStr ","
    [config.fieldMapping.systemName, config.fieldMapping.impactLevel,
     config.fieldMapping.startTime, config.fieldMapping.eta,
     config.fieldMapping.description, config.fieldMapping.teamsBridgeUrl]
  config.instanceUrl ++ "/api/now/table/" ++ config.outageTable ++
    "?sysparm_display_value=true&sysparm_query=" ++ encodeURIComponent (historyQuery config now) ++
    "&sysparm_fields=sys_id,number," ++ fields

/-- The ticket request URL built by `GET /api/servicenow/tickets`:
`Object.values(ticketFieldMapping)` joined for the projection, the fixed
base query plus the priority clause percent-encoded, and a fixed
`sysparm_limit=20` result cap. -/
def ticketQueryUrl (config : ServiceNowConfig) : String :=
  let fields := interStr ","
    [config.ticketFieldMapping.id, config.ticketFieldMapping.summary,
     config.ticketFieldMapping.affectedCI, config.ticketFieldMapping.status,
     config.ticketFieldMapping.assignedTeam, config.ticketFieldMapping.priority]
  let baseQuery := "stateNOT IN 6,7,8^ORDERBYDESCsys_updated_on"
  let priorityQuery := "^" ++ config.ticketFieldMapping.priority ++ "=1"
  let fullQuery := encodeURIComponent (baseQuery ++ priorityQuery)
  config.instanceUrl ++ "/api/now/table/" ++ config.ticketTable ++
    "?sysparm_display_value=true&sysparm_query=" ++ fullQuery ++
    "&sysparm_limit=20&sysparm_fields=" ++ fields

/-! ## Outage trend aggregation (`OutageTrendsPanel`, impact breakdown)

The panel keys its day map by `format(day, 'yyyy-MM-dd')`; that rendering
is injective on calendar days, so the model keys rows by the day number
itself (the `date` label of a row is presentation only). -/

/-- The canonical impact vocabulary (`type ImpactLevel` of the shared
types; `IMPACT_COLORS` is a total record over exactly these two). -/
inductive ImpactLevel where
  | Outage : ImpactLevel
  | Degradation : ImpactLevel
deriving DecidableEq

/-- A canonical outage record as the panels consume it (`startTime` and
`eta` are the instants of the route's ISO strings). -/
structure Outage where
  id : String
  systemName : String
  impactLevel : ImpactLevel
  startTime : Int
  eta : Int
  description : String
  teamsBridgeUrl : Option String
deriving DecidableEq

/-- One day bucket of the impact-breakdown chart: the day key plus the
per-impact-level counters (`IMPACT_LEVELS` order: Outage, Degradation). -/
structure TrendRow where
  day : Int
  countOutage : Nat
  countDegradation : Nat
deriving DecidableEq

/-- `const IMPACT_LEVELS: ImpactLevel[] = ['Outage', 'Degradation']`. -/
def impactKeys : List ImpactLevel := [.Outage, .Degradation]

/-- `row[outage.impactLevel]++`. -/
def bumpRow (lvl : ImpactLevel) (r : TrendRow) : TrendRow :=
  match lvl with
  | .Outage => { r with countOutage := r.countOutage + 1 }
  | .Degradation => { r with countDegradation := r.countDegradation + 1 }

/-- The stable day buckets: `for (offset = 6; offset >= 0; offset--)`
inserts the day of `subDays(new Date(), offset)`, oldest first, with
both counters initialised to zero. -/
def initTrendRows (now : Int) : List TrendRow :=
  (List.range 7).map (fun i =>
    { day := dayOf (now - (6 - (i : Int)) * 86400), countOutage := 0, countDegradation := 0 })

/-- The 7 bucket days the panel emits, oldest first: today − 6 through
today as day numbers. -/
def trendDays (now : Int) : List Int :=
  (List.range 7).map (fun (i : Nat) => dayOf now - 6 + (i : Int))

/-- Processing one outage of the history: skip it when its start instant
is before `sevenDaysAgo` (`subDays(now, 6)`, passed as `cutoff`); look
its day up among the buckets (a miss leaves the map unchanged); then
count it under its impact level when that level is in `IMPACT_LEVELS`. -/
def trendStep (cutoff : Int) (rows : List TrendRow) (o : Outage) : List TrendRow :=
  if o.startTime < cutoff then rows
  else if impactKeys.contains o.impactLevel then
    rows.map (fun r => if r.day = dayOf o.startTime then bumpRow o.impactLevel r else r)
  else rows

/-- The impact-breakdown branch of the panel's `chartData` memo:
initialise the 7 buckets, then fold the fetched history through
`trendStep` with cutoff `subDays(now, 6)`. -/
def aggregateImpact (history : List Outage) (now : Int) : List TrendRow :=
  history.foldl (trendStep (now - 6 * 86400)) (initTrendRows now)

/-- Sum of all counters over all buckets. -/
def totalTrendCount (rows : List TrendRow) : Nat :=
  (rows.map (fun r => r.countOutage + r.countDegradation)).sum

/-- The window the fold actually counts: start instant at or after
`now − 6 days` (exact time-of-day) and on a calendar day no later than
today. -/
def inCodeWindow (now : Int) (o : Outage) : Bool :=
  decide (now - 6 * 86400 ≤ o.startTime) && decide (dayOf o.startTime ≤ dayOf now)

/-- Modelled from the spec’s words, for comparison: "the 7-day window"
of calendar days ending today inclusive — start instant on one of the 7
calendar days `today − 6 … today`. -/
def inCalendarWindow (now : Int) (o : Outage) : Bool :=
  decide ((dayOf now - 6) * 86400 ≤ o.startTime) &&
    decide (o.startTime < (dayOf now + 1) * 86400)

/-! ## The scheduled-changes panel (`ScheduledChangesPanel`) -/

/-- `pat` occurs as a contiguous run in the character list
(`String.prototype.includes`). -/
def charsPrefixOf : List Char → List Char → Bool
  | [], _ => true
  | _ :: _, [] => false
  | a :: as, b :: bs => a == b && charsPrefixOf as bs

/-- Scan for an occurrence of `pat` at any position. -/
def charsContains (pat : List Char) : List Char → Bool
  | [] => charsPrefixOf pat []
  | c :: rest => charsPrefixOf pat (c :: rest) || charsContains pat rest

/-- JS `s.includes(pat)`. -/
def strIncludes (s pat : String) : Bool :=
  charsContains pat.toList s.toList

/-- `isCancelled`: the state's display text, lower-cased, contains
"cancel" (matches "Canceled" and "Cancelled"). -/
def isCancelledVal (state : JsVal) : Bool :=
  strIncludes (lowerStr (asText state)) "cancel"

/-- `isAllowedState`: the lower-cased state text contains one of
"scheduled", "implement", "review". -/
def isAllowedStateVal (state : JsVal) : Bool :=
  ["scheduled", "implement", "review"].any (fun w => strIncludes (lowerStr (asText state)) w)

/-- A raw change row as delivered by `/api/changes/today`: the fields the
panel consults, each a JSON value; `.undefV` models an absent key.
(`end` and `type` are Lean keywords, hence `endField`/`typeField`.) -/
structure RawChangeRow where
  id : JsVal
  sys_id : JsVal
  number : JsVal
  summary : JsVal
  short_description : JsVal
  description : JsVal
  offering : JsVal
  service_offering : JsVal
  start : JsVal
  start_date : JsVal
  planned_start_date : JsVal
  window_start : JsVal
  endField : JsVal
  end_date : JsVal
  planned_end_date : JsVal
  window_end : JsVal
  state : JsVal
  status : JsVal
  typeField : JsVal
  change_type : JsVal
  url : JsVal
  instance_base_url : JsVal

/-- A raw active-outage row as the panel reads it (only the offering
fields are consulted for correlation). -/
structure RawOutageRow where
  offering : JsVal
  service_offering : JsVal

/-- A raw change row with every key absent (for building test rows). -/
def emptyRawChange : RawChangeRow :=
  ⟨.undefV, .undefV, .undefV, .undefV, .undefV, .undefV, .undefV, .undefV, .undefV, .undefV, .undefV,
   .undefV, .undefV, .undefV, .undefV, .undefV, .undefV, .undefV, .undefV, .undefV, .undefV, .undefV⟩

/-- The mapped change item the panel renders (shape of the object
literal in the `.map` callback, with `__isHot` as `isHot`). -/
structure ChangeItem where
  id : JsVal
  number : JsVal
  summary : JsVal
  offering : JsVal
  start : JsVal
  endField : JsVal
  state : JsVal
  typeField : JsVal
  url : JsVal
  sys_id : JsVal
  isHot : Bool

/-- The trailing `...row` spread of the map callback: a key present on
the raw row (even with a null value) overwrites the field computed
earlier in the object literal; an absent key leaves it. -/
def spreadOr (raw computed : JsVal) : JsVal :=
  match raw with
  | .undefV => computed
  | v => v

/-- `buildUrl`: an explicit `url` wins; else a ServiceNow deep link when
both `sys_id` and `instance_base_url` are present; else null. -/
def buildUrl (row : RawChangeRow) : JsVal :=
  if row.url.truthy then .strV (asText row.url)
  else if row.sys_id.truthy && row.instance_base_url.truthy then
    .strV (row.instance_base_url.toStr ++ "/nav_to.do?uri=change_request.do?sys_id=" ++
      row.sys_id.toStr)
  else .nullV

/-- The set (as a duplicate-tolerant list) of hot offerings: each active
outage's `offering ?? service_offering ?? ''` as text, trimmed and
lower-cased, empty strings filtered out. -/
def hotOfferingSet (outages : List RawOutageRow) : List String :=
  (outages.map (fun o =>
    lowerStr (trimStr (asText (jsCoalesce o.offering (jsCoalesce o.service_offering (.strV ""))))))).filter
    (fun s => s ≠ "")

/-- The `offering` local of the map callback:
`asText(row.offering ?? row.service_offering ?? '').trim()`. -/
def changeOfferingText (row : RawChangeRow) : String :=
  trimStr (asText (jsCoalesce row.offering (jsCoalesce row.service_offering (.strV ""))))

/-- The `.map` callback of the panel: build the change item (with
`__isHot` from the hot-offering membership test), then apply the
trailing `...row` spread. -/
def mapChangeRow (hotOfferings : List String) (row : RawChangeRow) : ChangeItem :=
  let startChain := jsCoalesce row.start (jsCoalesce row.start_date
    (jsCoalesce row.planned_start_date (jsCoalesce row.window_start .nullV)))
  let endChain := jsCoalesce row.endField (jsCoalesce row.end_date
    (jsCoalesce row.planned_end_date (jsCoalesce row.window_end .nullV)))
  let offering := changeOfferingText row
  { id := spreadOr row.id (.strV (asText (jsCoalesce row.id (jsCoalesce row.sys_id
      (jsCoalesce row.number (.strV ((jsOr row.sys_id (.strV "")).toStr ++ ":" ++
        (jsOr row.number (.strV "")).toStr))))))),
    number := spreadOr row.number (.strV (asText (jsCoalesce row.number (.strV "")))),
    summary := spreadOr row.summary (.strV (asText (jsCoalesce row.summary
      (jsCoalesce row.short_description (jsCoalesce row.description (.strV "(no summary)")))))),
    offering := spreadOr row.offering (.strV offering),
    start := spreadOr row.start startChain,
    endField := spreadOr row.endField endChain,
    state := spreadOr row.state (.strV (asText (jsCoalesce row.state
      (jsCoalesce row.status (.strV ""))))),
    typeField := spreadOr row.typeField (.strV (asText (jsCoalesce row.typeField
      (jsCoalesce row.change_type (.strV ""))))),
    url := spreadOr row.url (buildUrl row),
    sys_id := spreadOr row.sys_id (.strV (asText row.sys_id)),
    isHot := if offering ≠ "" then hotOfferings.contains (lowerStr offering) else false }

/-- Start of today, `new Date(y, m, d, 0, 0, 0, 0)` (second resolution). -/
def dayStartOf (now : Int) : Int := dayOf now * 86400

/-- End of today, `new Date(y, m, d, 23, 59, 59, 999)` (second
resolution: 23:59:59). -/
def dayEndOf (now : Int) : Int := dayOf now * 86400 + 86399

/-- The "overlaps today" filter: no dates keeps the row; both dates is
an interval-overlap test against today; a lone start must be on/before
the end of today; a lone end must be on/after the start of today. -/
def overlapsToday (now : Int) (item : ChangeItem) : Bool :=
  match safeParse item.start, safeParse item.endField with
  | none, none => true
  | some s, some e => decide (s ≤ dayEndOf now) && decide (dayStartOf now ≤ e)
  | some s, none => decide (s ≤ dayEndOf now)
  | none, some e => decide (dayStartOf now ≤ e)

/-- The panel's sort comparator: ascending by parsed start instant,
rows without a parseable start last, ties kept stable. -/
def changeLE (a b : ChangeItem) : Bool :=
  match safeParse a.start, safeParse b.start with
  | some x, some y => decide (x ≤ y)
  | some _, none => true
  | none, some _ => false
  | none, none => true

/-- The panel's full row pipeline: map each raw change (correlating
against the active outages' hot-offering set), drop cancelled states,
keep allow-listed in-flight states, keep rows overlapping today, and
sort ascending by start with missing starts last. -/
def scheduledChangesRows (changes : List RawChangeRow) (outages : List RawOutageRow)
    (now : Int) : List ChangeItem :=
  ((((changes.map (mapChangeRow (hotOfferingSet outages))).filter
      (fun r => !isCancelledVal r.state)).filter
      (fun r => isAllowedStateVal r.state)).filter
      (overlapsToday now)).mergeSort changeLE

/-! ## Spec-side comparison definitions and concrete scenario data -/

/-- Modelled from the spec's words, for comparison with `historyQuery`:
the external tokens that the configured impact mapping maps to the given
canonical trend categories. -/
def mappedExternalTokens (config : ServiceNowConfig) (cats : List String) : List String :=
  (config.impactLevelMapping.filter (fun it => cats.contains it.dashboardValue)).map
    (fun it => it.servicenowValue)

/-- Modelled from the spec's words, for comparison: the history filter
the spec describes — same cutoff, but with the impact field restricted
to the configuration's mapped external tokens for the trend categories
rather than to a fixed token list. -/
def historyQueryClaimed (config : ServiceNowConfig) (now : Int) : String :=
  "end>=" ++ fmtDateTime (now - 7 * 86400) ++ "^" ++ config.fieldMapping.impactLevel ++
    "IN " ++ interStr "," (mappedExternalTokens config ["Outage", "Degradation"])

/-- A configuration whose impact mapping uses custom external tokens
(`sev1`/`sev2`), used to show the history query ignores the mapping. -/
def sevTokenConfig : ServiceNowConfig :=
  ⟨true, "https://sn", "SERVICENOW_USERNAME", "SERVICENOW_PASSWORD", "cmdb_ci_outage",
   defaultFieldMapping, [⟨"sev1", "Outage"⟩, ⟨"sev2", "Degradation"⟩], "incident",
   defaultTicketFieldMapping⟩

/-- Scenario instant for the panel claims: noon of day 6 (1970-01-07). -/
def scenarioNow : Int := 6 * 86400 + 43200

/-- Scenario active outage whose offering is "Payments". -/
def scenarioOutage : RawOutageRow := ⟨.strV "Payments", .undefV⟩

/-- Scenario change: offering "payments", state "Scheduled", starting
today (same calendar day as `scenarioNow`). -/
def scenarioChange : RawChangeRow :=
  { emptyRawChange with
    number := .strV "CHG0001", summary := .strV "Patch payment gateway",
    offering := .strV "payments", state := .strV "Scheduled",
    start := .strV "1970-01-07 09:00:00" }

/-- Scenario change in state "Canceled" (to be excluded entirely). -/
def scenarioCancelled : RawChangeRow :=
  { emptyRawChange with
    number := .strV "CHG0002", summary := .strV "Cancelled work",
    offering := .strV "Payments", state := .strV "Canceled",
    start := .strV "1970-01-07 10:00:00" }

/-! ## Theorems: impact translation (claim C2) and the config entity (claim C3) -/

/-- Looking a key up after a `Map.set`: the set key now maps to the set
value, every other key is unchanged. -/
theorem lookup_mapSet (m : List (String × String)) (k v k2 : String) :
    (mapSet m k v).lookup k2 = if k2 = k then some v else m.lookup k2 := by
  induction m with
  | nil =>
    simp only [mapSet, List.lookup]
    rcases hbeq : k2 == k with _ | _
    · have hne : ¬ k2 = k := by simpa using hbeq
      simp [hne]
    · have heq : k2 = k := by simpa using hbeq
      simp [heq]
  | cons p rest ih =>
    rcases p with ⟨pk, pv⟩
    simp only [mapSet]
    by_cases hpk : pk = k
    · rw [if_pos hpk]
      simp only [List.lookup]
      rcases hbeq : k2 == k with _ | _
      · have hne : ¬ k2 = k := by simpa using hbeq
        have hbeq2 : (k2 == pk) = false := by rw [hpk]; exact hbeq
        simp [hne, hbeq2]
      · have heq : k2 = k := by simpa using hbeq
        simp [heq, hpk]
    · rw [if_neg hpk]
      simp only [List.lookup, ih]
      rcases hbeq : k2 == pk with _ | _
      · simp [hbeq]
      · have heq : k2 = pk := by simpa using hbeq
        have hne : ¬ k2 = k := fun hh => hpk (heq.symm.trans hh)
        simp [hbeq, hne]

/-- Folding the entry list through `Map.set` starting from any map: a
key resolves to its last matching entry, falling back to the initial
map. -/
theorem buildImpactMap_fold (mapping : List ImpactMapItem) (acc : List (String × String))
    (key : String) :
    (mapping.foldl (fun m item => mapSet m (lowerStr item.servicenowValue) item.dashboardValue)
        acc).lookup key
      = (lastMappedValue mapping key).or (acc.lookup key) := by
  induction mapping generalizing acc with
  | nil => simp [lastMappedValue]
  | cons it rest ih =>
    simp only [List.foldl_cons]
    rw [ih, lookup_mapSet]
    simp only [lastMappedValue, List.reverse_cons, List.find?_append]
    rcases hfind : rest.reverse.find? (fun item => lowerStr item.servicenowValue == key) with
      _ | found
    · rw [hfind]
      simp only [Option.map_none, Option.none_or]
      rcases hk : lowerStr it.servicenowValue == key with _ | _
      · have hne : ¬ key = lowerStr it.servicenowValue := by
          intro h
          rw [h] at hk
          simp at hk
        simp [List.find?, hk, hne]
      · have heq : key = lowerStr it.servicenowValue := by
          have := eq_of_beq hk
          exact this.symm
        simp [List.find?, hk, heq]
    · rw [hfind]
      simp [Option.or]

/-- The impact `Map` lookup resolves every key to the value of the LAST
entry (in mapping order) whose lower-cased external key equals it. -/
theorem buildImpactMap_lookup (mapping : List ImpactMapItem) (key : String) :
    (buildImpactMap mapping).lookup key = lastMappedValue mapping key := by
  rw [buildImpactMap, buildImpactMap_fold]
  simp [List.lookup]

/-- `a || b` keeps a string operand: falsy means the string is `""`. -/
theorem jsOr_strV (s : String) : jsOr (.strV s) (.strV "") = .strV s := by
  by_cases h : s = "" <;> simp [jsOr, JsVal.truthy, h]

/-- C2 counterexample. The claim says the FIRST of two duplicate-keyed
mapping entries wins; on the code the `Map` constructor overwrites, so
the LAST wins: with entries `major → Degradation` then `major → Outage`,
the token `major` translates to `Outage`, not to `Degradation`. -/
theorem c2_first_entry_counterexample :
    translateImpact (.strV "major") [⟨"major", "Degradation"⟩, ⟨"major", "Outage"⟩] = "Outage"
  ∧ translateImpact (.strV "major") [⟨"major", "Degradation"⟩, ⟨"major", "Outage"⟩]
      ≠ "Degradation" := by
  exact ⟨by decide, by decide⟩

/-- C2 (amended: the LAST duplicate entry wins). For a mapping whose
last entry with a given lower-cased external key is `a`, any token
normalizing to that key translates to `a`'s canonical value; the lookup
only depends on the trimmed, lower-cased token (case- and
whitespace-insensitive); and unknown tokens, as well as a null token
(when no entry has an empty key), yield the default `Degradation`. -/
theorem c2_translate_last_wins :
    (∀ (m₁ m₂ : List ImpactMapItem) (a : ImpactMapItem) (s : String),
      (∀ item ∈ m₂, lowerStr item.servicenowValue ≠ lowerStr a.servicenowValue) →
      trimStr (lowerStr s) = lowerStr a.servicenowValue →
      a.dashboardValue ≠ "" →
      translateImpact (.strV s) (m₁ ++ a :: m₂) = a.dashboardValue)
  ∧ (∀ (s t : String) (mapping : List ImpactMapItem),
      trimStr (lowerStr s) = trimStr (lowerStr t) →
      translateImpact (.strV s) mapping = translateImpact (.strV t) mapping)
  ∧ (∀ (s : String) (mapping : List ImpactMapItem),
      (∀ item ∈ mapping, lowerStr item.servicenowValue ≠ trimStr (lowerStr s)) →
      translateImpact (.strV s) mapping = "Degradation")
  ∧ (∀ mapping : List ImpactMapItem,
      (∀ item ∈ mapping, lowerStr item.servicenowValue ≠ "") →
      translateImpact .nullV mapping = "Degradation") := by
  have token_eq : ∀ s : String,
      trimStr (lowerStr (jsOr (.strV s) (.strV "")).toStr) = trimStr (lowerStr s) := by
    intro s
    rw [jsOr_strV]
    simp [JsVal.toStr]
  have unknown : ∀ (key : String) (mapping : List ImpactMapItem),
      (∀ item ∈ mapping, lowerStr item.servicenowValue ≠ key) →
      (buildImpactMap mapping).lookup key = none := by
    intro key mapping hno
    rw [buildImpactMap_lookup, lastMappedValue]
    have hfn : mapping.reverse.find? (fun item => lowerStr item.servicenowValue == key)
        = none := by
      rw [List.find?_eq_none]
      intro x hx
      simp only [beq_iff_eq]
      exact hno x (List.mem_reverse.mp hx)
    rw [hfn]
    rfl
  refine ⟨?_, ?_, ?_, ?_⟩
  · intro m₁ m₂ a s hm₂ htok hval
    rw [translateImpact]
    simp only [token_eq, htok]
    rw [buildImpactMap_lookup, lastMappedValue]
    have hnone : m₂.reverse.find?
        (fun item => lowerStr item.servicenowValue == lowerStr a.servicenowValue) = none := by
      rw [List.find?_eq_none]
      intro x hx
      simp only [beq_iff_eq]
      exact hm₂ x (List.mem_reverse.mp hx)
    simp only [List.reverse_append, List.reverse_cons, List.find?_append, hnone,
      Option.none_or]
    simp [List.find?, hval]
  · intro s t mapping htok
    rw [translateImpact, translateImpact]
    simp only [token_eq, htok]
  · intro s mapping hno
    rw [translateImpact]
    simp only [token_eq]
    rw [unknown _ _ hno]
  · intro mapping hno
    rw [translateImpact]
    have : trimStr (lowerStr (jsOr .nullV (.strV "")).toStr) = "" := by decide
    simp only [this]
    rw [unknown _ _ hno]

/-- Witness for C2 (amended): a whitespace-and-case-mangled token `"
MAJOR "` resolves through a duplicate-keyed mapping to the LAST entry's
value, and an unmapped token falls back to the default. -/
theorem c2_translate_last_wins_witness :
    translateImpact (.strV "  MAJOR  ") [⟨"major", "Degradation"⟩, ⟨"major", "Outage"⟩]
      = "Outage"
  ∧ translateImpact (.strV "mystery") [⟨"major", "Degradation"⟩, ⟨"major", "Outage"⟩]
      = "Degradation" := by
  constructor
  · exact c2_translate_last_wins.1 [⟨"major", "Degradation"⟩] [] ⟨"major", "Outage"⟩
      "  MAJOR  " (by simp) (by decide) (by decide)
  · exact c2_translate_last_wins.2.2.1 "mystery" [⟨"major", "Degradation"⟩, ⟨"major", "Outage"⟩]
      (by decide)

/-- C3 counterexample. The claim says no reader ever observes an empty
impact-mapping list; but the read-time repair only replaces a missing or
non-array value, so a stored EMPTY array (which the unvalidated save
route accepts) is returned as-is. -/
theorem c3_nonempty_counterexample :
    ¬ (∀ s : ServiceNowStoredState,
        (ServiceNowConfigEntity.getState s).impactLevelMapping ≠ []) := by
  intro h
  exact h
    ⟨false, "", "SERVICENOW_USERNAME", "SERVICENOW_PASSWORD", "cmdb_ci_outage",
     defaultFieldMapping, .arrOf [], "incident", defaultTicketFieldMapping⟩
    rfl

/-- C3 (amended). A read repairs a missing or non-array stored
`impactLevelMapping` to the built-in (non-empty) default; a stored array
— including the empty array, which the unvalidated save route will
happily persist — is returned exactly as stored. -/
theorem c3_getState_repair :
    (∀ s : ServiceNowStoredState, s.impactLevelMapping = .missing →
      (ServiceNowConfigEntity.getState s).impactLevelMapping = defaultImpactLevelMapping)
  ∧ (∀ (s : ServiceNowStoredState) (v : JsVal), s.impactLevelMapping = .notArray v →
      (ServiceNowConfigEntity.getState s).impactLevelMapping = defaultImpactLevelMapping)
  ∧ (∀ (s : ServiceNowStoredState) (items : List ImpactMapItem),
      s.impactLevelMapping = .arrOf items →
      (ServiceNowConfigEntity.getState (ServiceNowConfigEntity.save s)).impactLevelMapping
        = items)
  ∧ defaultImpactLevelMapping ≠ [] := by
  refine ⟨?_, ?_, ?_, by decide⟩
  · intro s h
    simp [ServiceNowConfigEntity.getState, h, getStateImpactMapping]
  · intro s v h
    simp [ServiceNowConfigEntity.getState, h, getStateImpactMapping]
  · intro s items h
    simp [ServiceNowConfigEntity.getState, ServiceNowConfigEntity.save, h,
      getStateImpactMapping]

/-- Witness for C3 (amended): reading a stored state whose mapping field
was clobbered to a null-like value yields the default, and reading a
saved empty array yields the empty array. -/
theorem c3_getState_repair_witness :
    (ServiceNowConfigEntity.getState
      ⟨true, "https://sn", "SERVICENOW_USERNAME", "SERVICENOW_PASSWORD", "cmdb_ci_outage",
       defaultFieldMapping, .missing, "incident", defaultTicketFieldMapping⟩).impactLevelMapping
      = defaultImpactLevelMapping
  ∧ (ServiceNowConfigEntity.getState (ServiceNowConfigEntity.save
      ⟨true, "https://sn", "SERVICENOW_USERNAME", "SERVICENOW_PASSWORD", "cmdb_ci_outage",
       defaultFieldMapping, .arrOf [], "incident",
       defaultTicketFieldMapping⟩)).impactLevelMapping = [] := by
  constructor
  · exact c3_getState_repair.1
      ⟨true, "https://sn", "SERVICENOW_USERNAME", "SERVICENOW_PASSWORD", "cmdb_ci_outage",
       defaultFieldMapping, .missing, "incident", defaultTicketFieldMapping⟩ rfl
  · exact c3_getState_repair.2.2.1
      ⟨true, "https://sn", "SERVICENOW_USERNAME", "SERVICENOW_PASSWORD", "cmdb_ci_outage",
       defaultFieldMapping, .arrOf [], "incident", defaultTicketFieldMapping⟩ [] rfl

/-! ## Theorems: vendor status polling (claims C1 and C5) -/

/-- An API probe whose fetch throws is reported `Degraded`. -/
theorem probeStatus_throw_degraded (v : Vendor) (h : isApiProbe v = true) :
    probeStatus .throwErr v = "Degraded" := by
  simp [probeStatus, h]

/-- C1. `pollAll` (the vendor-status batch) returns exactly one result
per input vendor, in input order and cardinality; the `i`-th result is a
function of the `i`-th vendor and that vendor's own fetch outcome alone
(so one vendor's failure cannot change any other vendor's result, and
the batch — a total function — raises no error); it carries that
vendor's id; and when the `i`-th vendor's probe throws, that vendor's
result is `Degraded`. -/
theorem c1_pollAll_batch (vendors : List Vendor) (net : Nat → FetchOutcome) :
    (pollAll vendors net).length = vendors.length ∧
    (∀ i, (h : i < vendors.length) →
      (pollAll vendors net)[i]? = some (vendorResult (net i) vendors[i])) ∧
    (∀ i, (h : i < vendors.length) → (vendorResult (net i) vendors[i]).id = vendors[i].id) ∧
    (∀ i, (h : i < vendors.length) → isApiProbe vendors[i] = true → net i = .throwErr →
      (vendorResult (net i) vendors[i]).status = "Degraded") := by
  refine ⟨by simp [pollAll], ?_, ?_, ?_⟩
  · intro i h
    simp [pollAll, List.getElem?_map, List.getElem?_enum, List.getElem?_eq_getElem h]
  · intro i h
    rfl
  · intro i h hapi hthrow
    simp [vendorResult, hthrow, probeStatus_throw_degraded _ hapi]

/-- Witness for C1: a concrete batch of a manual vendor and an API vendor
where every probe throws still yields two results, in order, with the
API vendor `Degraded` and the manual vendor untouched. -/
theorem c1_pollAll_batch_witness :
    (pollAll
      [⟨"v1", "a", "u1", "MANUAL", none, none, none⟩,
       ⟨"v2", "b", "u2", "API_JSON", some "https://api", some "status", some "ok"⟩]
      (fun _ => .throwErr)).length = 2 ∧
    (pollAll
      [⟨"v1", "a", "u1", "MANUAL", none, none, none⟩,
       ⟨"v2", "b", "u2", "API_JSON", some "https://api", some "status", some "ok"⟩]
      (fun _ => .throwErr))[1]? = some ⟨"v2", "b", "u2", "Degraded"⟩ := by
  have h := c1_pollAll_batch
    [⟨"v1", "a", "u1", "MANUAL", none, none, none⟩,
     ⟨"v2", "b", "u2", "API_JSON", some "https://api", some "status", some "ok"⟩]
    (fun _ => .throwErr)
  refine ⟨h.1, ?_⟩
  rw [h.2.1 1 (by decide)]
  rfl

/-- C5. A single vendor probe: a `MANUAL` vendor (and more generally any
vendor whose probe guard fails, i.e. with no URL/path/expected value
configured) is `Operational` unconditionally; an API probe is `Degraded`
on a thrown fetch, on a non-success HTTP status, on an unparseable body,
and on a JSON path resolving to nothing (`undefined`); it is
`Operational` when the resolved value stringifies to the expected value
and `Outage` on any other resolved value. -/
theorem c5_probe_status (v : Vendor) (outcome : FetchOutcome) :
    (v.statusType = "MANUAL" → probeStatus outcome v = "Operational") ∧
    (isApiProbe v = false → probeStatus outcome v = "Operational") ∧
    (isApiProbe v = true →
      probeStatus .throwErr v = "Degraded" ∧
      (∀ body, probeStatus (.resp false body) v = "Degraded") ∧
      probeStatus (.resp true none) v = "Degraded" ∧
      (∀ json, getProperty json (v.jsonPath.getD "") = .undefV →
        probeStatus (.resp true (some json)) v = "Degraded") ∧
      (∀ json, getProperty json (v.jsonPath.getD "") ≠ .undefV →
        (getProperty json (v.jsonPath.getD "")).toStr = v.expectedValue.getD "" →
        probeStatus (.resp true (some json)) v = "Operational") ∧
      (∀ json, getProperty json (v.jsonPath.getD "") ≠ .undefV →
        (getProperty json (v.jsonPath.getD "")).toStr ≠ v.expectedValue.getD "" →
        probeStatus (.resp true (some json)) v = "Outage")) := by
  refine ⟨?_, ?_, ?_⟩
  · intro hm
    have : isApiProbe v = false := by simp [isApiProbe, hm]
    simp [probeStatus, this]
  · intro hf
    simp [probeStatus, hf]
  · intro ht
    refine ⟨by simp [probeStatus, ht], by intro body; simp [probeStatus, ht], ?_, ?_, ?_, ?_⟩
    · simp [probeStatus, ht]
    · intro json hj
      simp only [probeStatus, ht, if_true, Bool.not_true]
      rw [hj]
      simp
    · intro json hj he
      simp only [probeStatus, ht, if_true, Bool.not_true]
      rcases hv : getProperty json (v.jsonPath.getD "") with _ | _ | b | n | s | es | fs <;>
        rw [hv] at hj he <;> simp_all
    · intro json hj he
      simp only [probeStatus, ht, if_true, Bool.not_true]
      rcases hv : getProperty json (v.jsonPath.getD "") with _ | _ | b | n | s | es | fs <;>
        rw [hv] at hj he <;> simp_all

/-- Witness for C5: the clauses of `c5_probe_status` evaluated on a
concrete API vendor and a concrete manual vendor. -/
theorem c5_probe_status_witness :
    probeStatus .throwErr ⟨"v1", "n", "u", "MANUAL", none, none, none⟩ = "Operational" ∧
    probeStatus .throwErr
      ⟨"v2", "n", "u", "API_JSON", some "https://api", some "status.indicator", some "none"⟩
      = "Degraded" ∧
    probeStatus (.resp true (some (.objV [("status", .objV [("indicator", .strV "none")])])))
      ⟨"v2", "n", "u", "API_JSON", some "https://api", some "status.indicator", some "none"⟩
      = "Operational" ∧
    probeStatus (.resp true (some (.objV [("status", .objV [("indicator", .strV "major")])])))
      ⟨"v2", "n", "u", "API_JSON", some "https://api", some "status.indicator", some "none"⟩
      = "Outage" ∧
    probeStatus (.resp true (some (.objV [("nope", .strV "x")])))
      ⟨"v2", "n", "u", "API_JSON", some "https://api", some "status.indicator", some "none"⟩
      = "Degraded" := by
  refine ⟨?_, ?_, ?_, ?_, ?_⟩
  · exact (c5_probe_status ⟨"v1", "n", "u", "MANUAL", none, none, none⟩ .throwErr).1 rfl
  · exact ((c5_probe_status
      ⟨"v2", "n", "u", "API_JSON", some "https://api", some "status.indicator", some "none"⟩
      .throwErr).2.2 (by decide)).1
  · exact ((c5_probe_status
      ⟨"v2", "n", "u", "API_JSON", some "https://api", some "status.indicator", some "none"⟩
      (.resp true (some (.objV [("status", .objV [("indicator", .strV "none")])])))).2.2
      (by decide)).2.2.2.2.1
      (.objV [("status", .objV [("indicator", .strV "none")])])
      (fun h => absurd (congrArg JsVal.toStr h) (by decide)) (by decide)
  · exact ((c5_probe_status
      ⟨"v2", "n", "u", "API_JSON", some "https://api", some "status.indicator", some "none"⟩
      (.resp true (some (.objV [("status", .objV [("indicator", .strV "major")])])))).2.2
      (by decide)).2.2.2.2.2
      (.objV [("status", .objV [("indicator", .strV "major")])])
      (fun h => absurd (congrArg JsVal.toStr h) (by decide)) (by decide)
  · exact ((c5_probe_status
      ⟨"v2", "n", "u", "API_JSON", some "https://api", some "status.indicator", some "none"⟩
      (.resp true (some (.objV [("nope", .strV "x")])))).2.2
      (by decide)).2.2.2.1 (.objV [("nope", .strV "x")])
      (by have : jsSplitDot "status.indicator" = ["status", "indicator"] := by decide
          rfl)

/-! ## Theorems: query construction (claims C7 and C10) -/

/-- C7 counterexample. The claim says the trailing-7-days filter
restricts the impact field to the external tokens the configured impact
mapping maps to the trend categories.  With a configuration mapping
`sev1 → Outage` and `sev2 → Degradation`, the built query still carries
the fixed literal list `outage,degradation`, not `sev1,sev2`. -/
theorem c7_mapped_tokens_counterexample :
    historyQuery sevTokenConfig (20 * 86400)
      = "end>=1970-01-14 00:00:00^typeIN outage,degradation"
  ∧ historyQueryClaimed sevTokenConfig (20 * 86400)
      = "end>=1970-01-14 00:00:00^typeIN sev1,sev2"
  ∧ historyQuery sevTokenConfig (20 * 86400)
      ≠ historyQueryClaimed sevTokenConfig (20 * 86400) := by
  exact ⟨by decide, by decide, by decide⟩

/-- C7 (amended). For every configuration and instant, the history
filter compares the end-time field against a cutoff computed exactly 7
calendar days before now, and restricts the impact field to the FIXED
literal token list `outage,degradation` — which coincides with the
spec's "mapped external tokens" exactly for configurations whose impact
mapping is the built-in default. -/
theorem c7_history_query (config : ServiceNowConfig) (now : Int) :
    (∃ rest, historyQuery config now = "end>=" ++ fmtDateTime (now - 7 * 86400) ++ rest)
  ∧ (∃ pre, historyQuery config now = pre ++ "IN outage,degradation")
  ∧ (config.impactLevelMapping = defaultImpactLevelMapping →
      historyQueryClaimed config now = historyQuery config now) := by
  refine ⟨?_, ?_, ?_⟩
  · exact ⟨"^" ++ config.fieldMapping.impactLevel ++ "IN outage,degradation",
      by simp [historyQuery, String.append_assoc]⟩
  · exact ⟨"end>=" ++ fmtDateTime (now - 7 * 86400) ++ "^" ++ config.fieldMapping.impactLevel,
      rfl⟩
  · intro hmap
    have htok : interStr "," (mappedExternalTokens config ["Outage", "Degradation"])
        = "outage,degradation" := by
      rw [mappedExternalTokens, hmap]
      decide
    rw [historyQueryClaimed, historyQuery, htok]
    have : "IN " ++ "outage,degradation" = "IN outage,degradation" := by decide
    rw [String.append_assoc _ "IN " "outage,degradation", this]

/-- Witness for C7 (amended): the default configuration's history query
at a concrete instant, where the spec-side and code-side filters agree. -/
theorem c7_history_query_witness :
    historyQueryClaimed
      ⟨true, "https://sn", "SERVICENOW_USERNAME", "SERVICENOW_PASSWORD", "cmdb_ci_outage",
       defaultFieldMapping, defaultImpactLevelMapping, "incident", defaultTicketFieldMapping⟩
      (20 * 86400)
    = historyQuery
      ⟨true, "https://sn", "SERVICENOW_USERNAME", "SERVICENOW_PASSWORD", "cmdb_ci_outage",
       defaultFieldMapping, defaultImpactLevelMapping, "incident", defaultTicketFieldMapping⟩
      (20 * 86400) := by
  exact (c7_history_query
    ⟨true, "https://sn", "SERVICENOW_USERNAME", "SERVICENOW_PASSWORD", "cmdb_ci_outage",
     defaultFieldMapping, defaultImpactLevelMapping, "incident", defaultTicketFieldMapping⟩
    (20 * 86400)).2.2 rfl

/-- C10. Every ticket request URL the route builds contains the fixed
result cap `sysparm_limit=20`, regardless of configuration — a single
ticket fetch requests at most 20 records. -/
theorem c10_ticket_query_cap (config : ServiceNowConfig) :
    ∃ p s, ticketQueryUrl config = p ++ "sysparm_limit=20" ++ s := by
  refine ⟨config.instanceUrl ++ "/api/now/table/" ++ config.ticketTable ++
    "?sysparm_display_value=true&sysparm_query=" ++
    encodeURIComponent ("stateNOT IN 6,7,8^ORDERBYDESCsys_updated_on" ++
      ("^" ++ config.ticketFieldMapping.priority ++ "=1")) ++ "&",
    "&sysparm_fields=" ++ interStr ","
      [config.ticketFieldMapping.id, config.ticketFieldMapping.summary,
       config.ticketFieldMapping.affectedCI, config.ticketFieldMapping.status,
       config.ticketFieldMapping.assignedTeam, config.ticketFieldMapping.priority], ?_⟩
  have hsplit : "&sysparm_limit=20&sysparm_fields="
      = "&" ++ "sysparm_limit=20" ++ "&sysparm_fields=" := by decide
  simp only [ticketQueryUrl, hsplit, String.append_assoc]

/-! ## Theorems: date normalization (claim C8) and path resolution (claim C9) -/

/-- C8. The date normalizer never fails outward: `safeParseDate` (worker
routes) maps null and the empty string to "now" and falls back to "now"
on any input whose parse is an Invalid Date — every input either parses
to its instant or becomes "now"; the panel's `normDateStr` rewrites the
SQL-style `"2024-01-05 10:00:00"` to the ISO-like `"2024-01-05T10:00:00"`
before parsing, and both forms denote the same instant under both
normalizers. -/
theorem c8_date_normalizer :
    (∀ now : Int, safeParseDate .nullV now = now)
  ∧ (∀ now : Int, safeParseDate (.strV "") now = now)
  ∧ (∀ (v : JsVal) (now : Int),
      (∃ t, jsNewDate v = some t ∧ safeParseDate v now = t) ∨ safeParseDate v now = now)
  ∧ normDateStr (.strV "2024-01-05 10:00:00") = some "2024-01-05T10:00:00"
  ∧ safeParse (.strV "2024-01-05 10:00:00") = safeParse (.strV "2024-01-05T10:00:00")
  ∧ (∀ now : Int, safeParseDate (.strV "2024-01-05 10:00:00") now
      = safeParseDate (.strV "2024-01-05T10:00:00") now)
  ∧ (∀ now : Int, safeParseDate (.strV "not a date") now = now) := by
  refine ⟨fun now => rfl, fun now => rfl, ?_, by decide, by decide, fun now => rfl,
    fun now => rfl⟩
  intro v now
  rcases hv : v.truthy with _ | _
  · right
    simp [safeParseDate, hv]
  · rcases hn : jsNewDate v with _ | t
    · right
      simp [safeParseDate, hv, hn]
    · refine Or.inl ⟨t, rfl, ?_⟩
      simp [safeParseDate, hv, hn]

/-- C9 counterexample. The claim says that when a path resolves to a
relation-shaped object that HAS a display field, `resolve` returns that
display field's string.  The unwrap uses JS `||`, so a present-but-empty
display field is skipped: here the resolution ends at an object whose
`display_value` is `""`, yet `getProperty` returns the `name` field
(`"Payments API"`), not the display field's string `""`. -/
theorem c9_display_field_counterexample :
    getPropertyWalk
      (.objV [("offering", .objV [("display_value", .strV ""), ("name", .strV "Payments API")])])
      (jsSplitDot "offering")
      = .objV [("display_value", .strV ""), ("name", .strV "Payments API")]
  ∧ (JsVal.objV [("display_value", .strV ""), ("name", .strV "Payments API")]).hasKey
      "display_value" = true
  ∧ getProperty
      (.objV [("offering", .objV [("display_value", .strV ""), ("name", .strV "Payments API")])])
      "offering" = .strV "Payments API"
  ∧ getProperty
      (.objV [("offering", .objV [("display_value", .strV ""), ("name", .strV "Payments API")])])
      "offering" ≠ .strV "" := by
  refine ⟨rfl, rfl, rfl, ?_⟩
  intro h
  exact absurd (congrArg JsVal.toStr h) (by decide)

/-- C9 (amended: a falsy display field is skipped, like each later
alternative). When a path's resolution ends at a relation-shaped
(object) value, `getProperty` returns the display field's string
whenever that field is a non-empty string — never the raw object — and
otherwise unwraps in priority order: non-empty name field, else
non-empty raw value field, else the compact JSON serialization of the
whole object. -/
theorem c9_reference_unwrap (record : JsVal) (path : String) (fields : List (String × JsVal))
    (hwalk : getPropertyWalk record (jsSplitDot path) = .objV fields) :
    (∀ s : String, (JsVal.objV fields).get "display_value" = .strV s → s ≠ "" →
      getProperty record path = .strV s)
  ∧ (((JsVal.objV fields).get "display_value").truthy = false →
      ∀ s : String, (JsVal.objV fields).get "name" = .strV s → s ≠ "" →
        getProperty record path = .strV s)
  ∧ (((JsVal.objV fields).get "display_value").truthy = false →
      ((JsVal.objV fields).get "name").truthy = false →
      ∀ s : String, (JsVal.objV fields).get "value" = .strV s → s ≠ "" →
        getProperty record path = .strV s)
  ∧ (((JsVal.objV fields).get "display_value").truthy = false →
      ((JsVal.objV fields).get "name").truthy = false →
      ((JsVal.objV fields).get "value").truthy = false →
      getProperty record path = .strV (JsVal.objV fields).stringify) := by
  refine ⟨?_, ?_, ?_, ?_⟩
  · intro s hdisp hs
    have ht : ((JsVal.objV fields).get "display_value").truthy = true := by
      rw [hdisp]
      simp [JsVal.truthy, hs]
    simp only [getProperty, hwalk, jsOr]
    rw [if_pos ht, hdisp]
  · intro hdisp s hname hs
    have ht : ((JsVal.objV fields).get "name").truthy = true := by
      rw [hname]
      simp [JsVal.truthy, hs]
    simp only [getProperty, hwalk, jsOr]
    rw [if_neg (by simp [hdisp]), if_pos ht, hname]
  · intro hdisp hname s hval hs
    have ht : ((JsVal.objV fields).get "value").truthy = true := by
      rw [hval]
      simp [JsVal.truthy, hs]
    simp only [getProperty, hwalk, jsOr]
    rw [if_neg (by simp [hdisp]), if_neg (by simp [hname]), if_pos ht, hval]
  · intro hdisp hname hval
    simp only [getProperty, hwalk, jsOr]
    rw [if_neg (by simp [hdisp]), if_neg (by simp [hname]), if_neg (by simp [hval])]

/-- Witness for C9 (amended): a record whose reference object carries a
non-empty display field resolves to that display string, and one whose
display field is null with only a raw value falls through to the raw
value's string. -/
theorem c9_reference_unwrap_witness :
    getProperty (.objV [("ci", .objV [("display_value", .strV "Core Router")])]) "ci"
      = .strV "Core Router"
  ∧ getProperty (.objV [("ci", .objV [("display_value", .nullV), ("value", .strV "42")])]) "ci"
      = .strV "42" := by
  constructor
  · exact (c9_reference_unwrap (.objV [("ci", .objV [("display_value", .strV "Core Router")])])
      "ci" [("display_value", .strV "Core Router")] rfl).1 "Core Router" rfl (by decide)
  · exact (c9_reference_unwrap
      (.objV [("ci", .objV [("display_value", .nullV), ("value", .strV "42")])])
      "ci" [("display_value", .nullV), ("value", .strV "42")] rfl).2.2.1 rfl rfl
      "42" rfl (by decide)

/-! ## Theorems: trend aggregation (claim C4) -/

/-- Mapping a function that fixes every element of a list is the
identity. -/
theorem map_id_of_mem {α : Type} (l : List α) (f : α → α) (h : ∀ x ∈ l, f x = x) :
    l.map f = l := by
  induction l with
  | nil => rfl
  | cons a rest ih =>
    simp only [List.map_cons, h a (List.mem_cons_self a rest)]
    rw [ih (fun x hx => h x (List.mem_cons_of_mem a hx))]

/-- Shifting an instant by whole days shifts its calendar day. -/
theorem dayOf_sub_days (t k : Int) : dayOf (t - k * 86400) = dayOf t - k := by
  have h1 : (t + -k * 86400).ediv 86400 = t.ediv 86400 + -k :=
    Int.add_mul_ediv_right t (-k) (by norm_num)
  have h2 : t - k * 86400 = t + -k * 86400 := by ring
  rw [dayOf, dayOf, h2, h1]
  ring

/-- The calendar day is monotone in the instant. -/
theorem dayOf_mono {a b : Int} (h : a ≤ b) : dayOf a ≤ dayOf b :=
  Int.ediv_le_ediv (by norm_num) h

/-- A bump never changes a bucket's day. -/
theorem bumpRow_day (lvl : ImpactLevel) (r : TrendRow) : (bumpRow lvl r).day = r.day := by
  cases lvl <;> rfl

/-- A bump adds exactly one to a bucket's combined count. -/
theorem bumpRow_total (lvl : ImpactLevel) (r : TrendRow) :
    (bumpRow lvl r).countOutage + (bumpRow lvl r).countDegradation
      = r.countOutage + r.countDegradation + 1 := by
  cases lvl
  all_goals simp only [bumpRow]
  all_goals omega

/-- `trendStep` never changes the bucket days. -/
theorem trendStep_days (c : Int) (rows : List TrendRow) (o : Outage) :
    (trendStep c rows o).map (fun r => r.day) = rows.map (fun r => r.day) := by
  rw [trendStep]
  split
  · rfl
  · split
    · rw [List.map_map]
      apply List.map_congr_left
      intro r _
      by_cases h : r.day = dayOf o.startTime
      · simp [Function.comp, h, bumpRow_day]
      · simp [Function.comp, h]
    · rfl

/-- Folding the whole history through `trendStep` never changes the
bucket days. -/
theorem foldl_trendStep_days (c : Int) (history : List Outage) (rows : List TrendRow) :
    (history.foldl (trendStep c) rows).map (fun r => r.day) = rows.map (fun r => r.day) := by
  induction history generalizing rows with
  | nil => rfl
  | cons o rest ih =>
    rw [List.foldl_cons, ih, trendStep_days]

/-- Bumping the (unique, by day-nodup) bucket of day `d` adds one to the
total exactly when `d` is among the bucket days. -/
theorem totalTrendCount_update (rows : List TrendRow) (d : Int) (lvl : ImpactLevel)
    (hnd : (rows.map (fun r => r.day)).Nodup) :
    totalTrendCount (rows.map (fun r => if r.day = d then bumpRow lvl r else r))
      = totalTrendCount rows + (if d ∈ rows.map (fun r => r.day) then 1 else 0) := by
  induction rows with
  | nil => simp [totalTrendCount]
  | cons r rest ih =>
    simp only [List.map_cons, List.nodup_cons] at hnd
    obtain ⟨hr, hrest⟩ := hnd
    by_cases h : r.day = d
    · have hd : d ∉ rest.map (fun x => x.day) := h ▸ hr
      have htail : rest.map (fun x => if x.day = d then bumpRow lvl x else x) = rest := by
        apply map_id_of_mem
        intro x hx
        have : x.day ≠ d := by
          intro he
          exact hd (he ▸ List.mem_map_of_mem (fun y => y.day) hx)
        simp [this]
      simp only [List.map_cons, if_pos h, totalTrendCount, List.sum_cons, htail]
      have hmem : d ∈ r.day :: rest.map (fun x => x.day) := by
        rw [List.mem_cons]
        exact Or.inl h.symm
      rw [if_pos hmem, bumpRow_total]
      omega
    · simp only [List.map_cons, if_neg h, totalTrendCount, List.sum_cons]
      have := ih hrest
      simp only [totalTrendCount] at this
      rw [this]
      have hmem : (d ∈ r.day :: rest.map (fun x => x.day))
          ↔ d ∈ rest.map (fun x => x.day) := by
        rw [List.mem_cons]
        constructor
        · rintro (he | hm)
          · exact absurd he.symm h
          · exact hm
        · exact Or.inr
      by_cases hm : d ∈ rest.map (fun x => x.day)
      · simp only [hm, hmem, if_pos]
        omega
      · simp only [hm, hmem, if_neg]
        omega

/-- The day buckets of the panel: today − 6 through today, in order. -/
theorem initTrendRows_days (now : Int) :
    (initTrendRows now).map (fun r => r.day)
      = trendDays now := by
  simp only [initTrendRows, trendDays, List.map_map]
  apply List.map_congr_left
  intro i hi
  simp only [Function.comp]
  rw [dayOf_sub_days]
  ring

/-- Membership in the 7 bucket days is exactly the calendar-day bound. -/
theorem mem_rangeDays {now d : Int} :
    (d ∈ trendDays now)
      ↔ dayOf now - 6 ≤ d ∧ d ≤ dayOf now := by
  simp only [trendDays, List.mem_map, List.mem_range]
  constructor
  · rintro ⟨i, hi, rfl⟩
    omega
  · rintro ⟨h1, h2⟩
    exact ⟨(d - (dayOf now - 6)).toNat, by omega, by omega⟩

/-- The 7 bucket days are distinct. -/
theorem rangeDays_nodup (now : Int) :
    (trendDays now).Nodup := by
  rw [trendDays]
  apply List.Nodup.map ?_ (List.nodup_range 7)
  intro a b h
  have h2 : (a : Int) = (b : Int) := by
    have := add_left_cancel h
    exact this
  exact_mod_cast h2

/-- Folding a history through `trendStep` counts exactly the outages in
the code's window (start at/after `now − 6` days on a day no later than
today). -/
theorem aggregate_total_fold (now : Int) (history : List Outage) (rows : List TrendRow)
    (hdays : rows.map (fun r => r.day) = trendDays now) :
    totalTrendCount (history.foldl (trendStep (now - 6 * 86400)) rows)
      = totalTrendCount rows + (history.filter (inCodeWindow now)).length := by
  induction history generalizing rows with
  | nil => simp
  | cons o rest ih =>
    rw [List.foldl_cons, ih (trendStep (now - 6 * 86400) rows o)
      (by rw [trendStep_days, hdays])]
    have hstep : totalTrendCount (trendStep (now - 6 * 86400) rows o)
        = totalTrendCount rows + (if inCodeWindow now o = true then 1 else 0) := by
      rw [trendStep]
      by_cases hc : o.startTime < now - 6 * 86400
      · rw [if_pos hc]
        have hw : inCodeWindow now o = false := by
          simp only [inCodeWindow, Bool.and_eq_false_iff, decide_eq_false_iff_not]
          left
          omega
        simp [hw]
      · rw [if_neg hc]
        have hk : impactKeys.contains o.impactLevel = true := by
          cases o.impactLevel <;> rfl
        rw [if_pos hk,
          totalTrendCount_update rows (dayOf o.startTime) o.impactLevel
            (hdays ▸ rangeDays_nodup now)]
        have hlow : dayOf now - 6 ≤ dayOf o.startTime := by
          have h1 : now - 6 * 86400 ≤ o.startTime := by omega
          have h2 := dayOf_mono h1
          rw [dayOf_sub_days] at h2
          exact h2
        have hw : inCodeWindow now o = decide (dayOf o.startTime ≤ dayOf now) := by
          simp only [inCodeWindow, decide_eq_true_eq]
          have : (decide (now - 6 * 86400 ≤ o.startTime)) = true := by
            simp only [decide_eq_true_eq]
            omega
          rw [this, Bool.true_and]
        rw [hw, hdays]
        by_cases hd : dayOf o.startTime ≤ dayOf now
        · rw [if_pos (mem_rangeDays.mpr ⟨hlow, hd⟩)]
          simp [hd]
        · rw [if_neg (fun hmem => hd (mem_rangeDays.mp hmem).2)]
          simp [hd]
    rw [hstep, List.filter_cons]
    by_cases hw : inCodeWindow now o = true
    · simp only [hw, if_true, List.length_cons]
      omega
    · simp only [hw, if_false, Bool.false_eq_true]
      omega

/-- C4 counterexample. The claim's sum clause uses the calendar-day
window (today − 6 … today); the code's cutoff is `subDays(now, 6)` with
the time-of-day preserved.  At noon of day 6, an outage that started at
midnight of day 0 lies on a bucket day, but before the cutoff: the
bucket counts sum to 0 while the calendar window holds 1 outage. -/
theorem c4_window_counterexample :
    totalTrendCount (aggregateImpact
      [⟨"OUT1", "Payments", .Outage, 0, 3600, "outage", none⟩] (6 * 86400 + 43200)) = 0
  ∧ (([⟨"OUT1", "Payments", .Outage, 0, 3600, "outage", none⟩] : List Outage).filter
      (inCalendarWindow (6 * 86400 + 43200))).length = 1
  ∧ totalTrendCount (aggregateImpact
      [⟨"OUT1", "Payments", .Outage, 0, 3600, "outage", none⟩] (6 * 86400 + 43200))
      ≠ (([⟨"OUT1", "Payments", .Outage, 0, 3600, "outage", none⟩] : List Outage).filter
      (inCalendarWindow (6 * 86400 + 43200))).length := by
  exact ⟨by decide, by decide, by decide⟩

/-- C4 (amended: the window's lower bound keeps the time-of-day). For
every outage list — the empty one included — the impact aggregation
returns exactly 7 buckets, one per calendar day from today − 6 through
today in chronological order, and the bucket counts sum to the number of
outages whose start instant is at or after `now − 6` days (exact
time-of-day) and on a calendar day no later than today. -/
theorem c4_trend_buckets (history : List Outage) (now : Int) :
    (aggregateImpact history now).length = 7
  ∧ (aggregateImpact history now).map (fun r => r.day)
      = trendDays now
  ∧ totalTrendCount (aggregateImpact history now)
      = (history.filter (inCodeWindow now)).length := by
  have hdays : (aggregateImpact history now).map (fun r => r.day)
      = trendDays now := by
    rw [aggregateImpact, foldl_trendStep_days, initTrendRows_days]
  refine ⟨?_, hdays, ?_⟩
  · have := congrArg List.length hdays
    simpa using this
  · rw [aggregateImpact, aggregate_total_fold now history (initTrendRows now)
      (initTrendRows_days now)]
    have hzero : totalTrendCount (initTrendRows now) = 0 := by
      rw [totalTrendCount, initTrendRows, List.map_map]
      apply List.sum_eq_zero
      intro x hx
      rcases List.mem_map.mp hx with ⟨i, _, rfl⟩
      rfl
    rw [hzero]
    omega

/-! ## Theorems: change/outage correlation (claim C6) -/

/-- The hot-offering set never contains the empty string (blank
offerings are filtered out when the set is built). -/
theorem hotOfferingSet_no_empty (outages : List RawOutageRow) :
    (hotOfferingSet outages).contains "" = false := by
  rcases hcon : (hotOfferingSet outages).contains "" with _ | _
  · rfl
  · exfalso
    have hmem : "" ∈ hotOfferingSet outages :=
      List.mem_of_elem_eq_true (by simpa [List.contains] using hcon)
    have := (List.mem_filter.mp hmem).2
    simp at this

/-- The scenario pipeline evaluates to the single mapped scheduled
change (the cancelled change is filtered out). -/
theorem scenario_rows_eval :
    scheduledChangesRows [scenarioChange, scenarioCancelled] [scenarioOutage] scenarioNow
      = [mapChangeRow (hotOfferingSet [scenarioOutage]) scenarioChange] := by
  rw [scheduledChangesRows]
  have h1 : (((([scenarioChange, scenarioCancelled].map
      (mapChangeRow (hotOfferingSet [scenarioOutage]))).filter
      (fun r => !isCancelledVal r.state)).filter
      (fun r => isAllowedStateVal r.state)).filter
      (overlapsToday scenarioNow))
      = [mapChangeRow (hotOfferingSet [scenarioOutage]) scenarioChange] := rfl
  rw [h1, List.mergeSort_singleton]

/-- C6. The correlator flags a change as hot exactly when its offering,
trimmed and lower-cased, is a member of the set of trimmed, lower-cased
offering identifiers of the active outages; every change whose state
reads as cancelled is excluded entirely from the panel's rows; and in
the spec's scenario — active outage offering "Payments", change offering
"payments" in state "Scheduled" starting today — the surviving row is
hot while the "Canceled" change is excluded. -/
theorem c6_change_outage_correlation (changes : List RawChangeRow)
    (outages : List RawOutageRow) (now : Int) :
    (∀ item ∈ scheduledChangesRows changes outages now, isCancelledVal item.state = false)
  ∧ (∀ row ∈ changes,
      (mapChangeRow (hotOfferingSet outages) row).isHot
        = (hotOfferingSet outages).contains (lowerStr (changeOfferingText row)))
  ∧ (scheduledChangesRows [scenarioChange, scenarioCancelled] [scenarioOutage]
      scenarioNow).map (fun item => item.isHot) = [true]
  ∧ (scheduledChangesRows [scenarioChange, scenarioCancelled] [scenarioOutage]
      scenarioNow).map (fun item => asText item.state) = ["Scheduled"] := by
  refine ⟨?_, ?_, ?_, ?_⟩
  · intro item hmem
    rw [scheduledChangesRows, List.mem_mergeSort] at hmem
    have h1 := (List.mem_filter.mp hmem).1
    have h2 := (List.mem_filter.mp h1).1
    have h3 := (List.mem_filter.mp h2).2
    simpa using h3
  · intro row hrow
    simp only [mapChangeRow]
    by_cases h : changeOfferingText row = ""
    · rw [if_neg (by simp [h])]
      have hl : lowerStr (changeOfferingText row) = "" := by
        rw [h]
        rfl
      rw [hl, hotOfferingSet_no_empty]
    · rw [if_pos h]
  · rw [scenario_rows_eval]
    decide
  · rw [scenario_rows_eval]
    decide

/-- Witness for C6: in the concrete scenario, the surviving row's state
is not cancelled and its hot flag equals the membership test of its
normalized offering in the outages' hot-offering set (and is `true`). -/
theorem c6_change_outage_correlation_witness :
    isCancelledVal ((mapChangeRow (hotOfferingSet [scenarioOutage]) scenarioChange).state)
      = false
  ∧ (mapChangeRow (hotOfferingSet [scenarioOutage]) scenarioChange).isHot
      = (hotOfferingSet [scenarioOutage]).contains
          (lowerStr (changeOfferingText scenarioChange))
  ∧ (mapChangeRow (hotOfferingSet [scenarioOutage]) scenarioChange).isHot = true := by
  have h := c6_change_outage_correlation [scenarioChange, scenarioCancelled]
    [scenarioOutage] scenarioNow
  refine ⟨?_, ?_, by decide⟩
  · apply h.1
    rw [scenario_rows_eval]
    exact List.mem_singleton.mpr rfl
  · exact h.2.1 scenarioChange (by simp)

end Aegis
